import Mathlib

/-!
Verification of the reflective RPC server (`go-common/net/rpc/server.go`).

The Go source is shallowly embedded: pure decision logic (registration
filtering, service lookup, identifier splitting, response construction)
becomes executable Lean functions; the effectful per-connection code
(handshake, one iteration of the serve loop, one invocation worker) becomes
functions from decoded wire input to the list of wire events they emit;
the send-mutex discipline of `sendResponse`/`writeResponse` becomes a small
labelled transition system over an abstract wire.
-/

namespace Rpc

/-! ## Go reflection model

Go types are embedded as a tree: a named (or unnamed) base type carrying its
`Name`, `PkgPath` and whether it implements the `context.Context` interface
(`ctxType` in the source), or a pointer to another type.  Pointer types in Go
reflection have empty `Name` and `PkgPath`; whether a pointer type implements
an interface is recorded as a flag on the node.  Type identity
(`returnType != typeOfError`) is structural equality of the embedding. -/
inductive GoType
  | base (name : String) (pkgPath : String) (implementsContext : Bool)
  | ptr (implementsContext : Bool) (elem : GoType)
deriving DecidableEq

/-- The reflect type of the builtin `error` interface (`typeOfError`). -/
def typeOfError : GoType := GoType.base "error" "" false

/-- Placeholder used for out-of-range `In`/`Out` indices (never reached after
the arity checks, mirroring Go where indexing past the checks cannot happen). -/
def anyType : GoType := GoType.base "" "" false

/-- Whether the type implements the context interface (`Implements(ctxType)`). -/
def GoType.implementsCtx : GoType → Bool
  | .base _ _ c => c
  | .ptr c _ => c

/-- `Kind() == reflect.Ptr`. -/
def GoType.isPtr : GoType → Bool
  | .base _ _ _ => false
  | .ptr _ _ => true

/-- `reflect.Type.Name()`: pointer types have empty name. -/
def GoType.name : GoType → String
  | .base n _ _ => n
  | .ptr _ _ => ""

/-- `reflect.Type.PkgPath()`: pointer types have empty package path. -/
def GoType.pkgPath : GoType → String
  | .base _ p _ => p
  | .ptr _ _ => ""

/-- Strip pointer indirections, as the loop in `isExportedOrBuiltinType`. -/
def GoType.stripPtr : GoType → GoType
  | .base n p c => .base n p c
  | .ptr _ t => t.stripPtr

/-- `isExported`: is the first rune of the name upper case?  Go's
`utf8.DecodeRuneInString` on the empty string yields `RuneError`, which is not
upper case, so the empty name is not exported. -/
def isExported (name : String) : Bool :=
  match name.data with
  | [] => false
  | c :: _ => c.isUpper

/-- `isExportedOrBuiltinType`: strip pointers, then exported name or empty
package path. -/
def isExportedOrBuiltinType (t : GoType) : Bool :=
  isExported t.stripPtr.name || t.stripPtr.pkgPath == ""

/-- One entry of a reflected method set (`reflect.Method`): name, `PkgPath`
(empty iff the method is exported), the input types (`In`, the receiver at
index 0) and the output types (`Out`). -/
structure GoMethod where
  name : String
  pkgPath : String
  ins : List GoType
  outs : List GoType
deriving DecidableEq

/-- `methodType`: the published descriptor of one method. -/
structure MethodT where
  method : GoMethod
  ArgType : GoType
  ReplyType : GoType
deriving DecidableEq

/-- `suitableMethods`: filter a reflected method set down to the methods
satisfying the RPC signature contract, keyed by method name.  The `reportErr`
parameter of the source only controls logging, which is outside the model.
The checks and their order mirror the source loop; a failed check `continue`s. -/
def suitableMethods : List GoMethod → List (String × MethodT)
  | [] => []
  | m :: rest =>
    let tail := suitableMethods rest
    if m.pkgPath != "" then tail
    else if m.ins.length != 4 then tail
    else if !(m.ins.getD 1 anyType).implementsCtx then tail
    else if !isExportedOrBuiltinType (m.ins.getD 2 anyType) then tail
    else if !(m.ins.getD 3 anyType).isPtr then tail
    else if !isExportedOrBuiltinType (m.ins.getD 3 anyType) then tail
    else if m.outs.length != 1 then tail
    else if m.outs.getD 0 anyType != typeOfError then tail
    else (m.name, ⟨m, m.ins.getD 2 anyType, m.ins.getD 3 anyType⟩) :: tail

/-- `service`: a registered service (receiver handle elided — the dispatch
model passes the handler explicitly). -/
structure Service where
  name : String
  method : List (String × MethodT)
deriving DecidableEq

/-- The server's `serviceMap`, as an association list with unique keys
(uniqueness is enforced by `register`'s duplicate check). -/
abbrev ServiceMap := List (String × Service)

/-- Go map lookup `serviceMap[name]`. -/
def mapLookup (m : ServiceMap) (k : String) : Option Service :=
  match m with
  | [] => none
  | (k', v) :: rest => if k = k' then some v else mapLookup rest k

/-- Go map insert `serviceMap[name] = s` (the key is known absent when
`register` inserts, so prepending is faithful). -/
def mapInsert (m : ServiceMap) (k : String) (v : Service) : ServiceMap :=
  (k, v) :: m

/-- A receiver value as `register` observes it through reflection:
`s.typ.String()` (used only in one error message), the name of the
indirected type, the method set of `TypeOf(rcvr)` and the method set of
`PtrTo(TypeOf(rcvr))` (used only for the hint). -/
structure Receiver where
  typeName : String
  indirectName : String
  methods : List GoMethod
  ptrMethods : List GoMethod

/-- `Server.register`: validate the service name, reject duplicates, filter
the method set, and install the service.  Returns the updated map and the
error, mirroring the in-place mutation plus error return of the source. -/
def register (m : ServiceMap) (rcvr : Receiver) (name : String) (useName : Bool) :
    ServiceMap × Option String :=
  let sname := if useName then name else rcvr.indirectName
  if sname = "" then
    (m, some ("rpc.Register: no service name for type " ++ rcvr.typeName))
  else if !isExported sname && !useName then
    (m, some ("rpc.Register: type " ++ sname ++ " is not exported"))
  else if (mapLookup m sname).isSome then
    (m, some ("rpc: service already defined: " ++ sname))
  else
    let methods := suitableMethods rcvr.methods
    if methods.isEmpty then
      if !(suitableMethods rcvr.ptrMethods).isEmpty then
        (m, some ("rpc.Register: type " ++ sname ++
          " has no exported methods of suitable type (hint: pass a pointer to value of that type)"))
      else
        (m, some ("rpc.Register: type " ++ sname ++ " has no exported methods of suitable type"))
    else
      (mapInsert m sname ⟨sname, methods⟩, none)

/-- The `context.Context` interface type of `go-common/net/rpc/context`. -/
def contextIfaceType : GoType := GoType.base "Context" "go-common/net/rpc/context" true

/-- The unnamed `struct{}` type: empty name, empty package path. -/
def emptyStructType : GoType := GoType.base "" "" false

/-- The reflected `Ping` method of `*pinger`:
`func (p *pinger) Ping(c context.Context, arg *struct{}, reply *struct{}) error`. -/
def pingMethod : GoMethod :=
  { name := "Ping"
    pkgPath := ""
    ins := [GoType.ptr false (GoType.base "pinger" "go-common/net/rpc" false),
            contextIfaceType,
            GoType.ptr false emptyStructType,
            GoType.ptr false emptyStructType]
    outs := [typeOfError] }

/-- The `new(pinger)` receiver that `Register`/`RegisterName` install under
the built-in service name `inner`. -/
def pingerReceiver : Receiver :=
  { typeName := "*rpc.pinger"
    indirectName := "pinger"
    methods := [pingMethod]
    ptrMethods := [pingMethod] }

/-- `Server.Register`: register the receiver under its concrete type name,
then register the built-in `inner` service. -/
def Register (m : ServiceMap) (rcvr : Receiver) : ServiceMap × Option String :=
  match register m rcvr "" false with
  | (m1, some e) => (m1, some e)
  | (m1, none) => register m1 pingerReceiver "inner" true

/-- `Server.RegisterName`: like `Register` but with a caller-supplied name. -/
def RegisterName (m : ServiceMap) (name : String) (rcvr : Receiver) :
    ServiceMap × Option String :=
  match register m rcvr name true with
  | (m1, some e) => (m1, some e)
  | (m1, none) => register m1 pingerReceiver "inner" true

/-! ## Wire records and per-call context -/

/-- The `Request` header as decoded from the wire (the private `ctx` field is
modelled separately; the trace payload is opaque). -/
structure Request where
  ServiceMethod : String
  Seq : Nat
  Trace : Option Nat := none
deriving DecidableEq

/-- The `Auth` handshake record. -/
structure Auth where
  User : String
  Token : String
deriving DecidableEq

/-- The `Response` header. -/
structure Response where
  ServiceMethod : String
  Seq : Nat
  Error : String
deriving DecidableEq

/-- The invocation context built by `context.NewContext(c1, user, serviceMethod, seq)`;
the trace rides in the wrapped `c1`. -/
structure Context where
  user : String
  serviceMethod : String
  seq : Nat
  traceData : Option Nat := none
deriving DecidableEq

/-- A body record on the wire: either the `invalidRequest` placeholder
(`struct{}{}`) or an actual reply/argument value. -/
inductive WireBody (β : Type)
  | invalidRequest
  | value (b : β)
deriving DecidableEq

/-- `Server.sendResponse` without the lock (the lock discipline is modelled by
`SendStep` below): substitute the placeholder when `errmsg` is non-empty, fill
the `Response` header from the context, and emit header then body. -/
def sendResponse (c : Context) (reply : WireBody β) (errmsg : String) :
    Response × WireBody β :=
  ({ ServiceMethod := c.serviceMethod, Seq := c.seq, Error := errmsg },
   if errmsg != "" then WireBody.invalidRequest else reply)

/-- The `Rate` and `Auth` hooks of an `Interceptor` as pure oracles returning
`some errorString` for a non-nil error.  `Stat` returns nothing and is recorded
as an event by the callers. -/
structure Interceptor where
  rate : Context → Option String
  auth : Context → String → String → Option String
deriving Inhabited

/-- The decoded input a handshake consumes: the header-decode outcome and the
`Auth`-body-decode outcome (`Except.error` carries the decoder's message). -/
structure HandshakeWire where
  header : Except String Request
  body : Except String Auth

/-- `Server.handshake`: returns the responses written during the handshake and
the error returned to `serveCodec` (which closes the connection when non-none). -/
def handshake (hsEnabled : Bool) (icpt : Option Interceptor) (addr : String)
    (w : HandshakeWire) : List (Response × WireBody Unit) × Option String :=
  if !hsEnabled then ([], none)
  else match w.header with
  | .error e => ([], some e)
  | .ok req =>
    match w.body with
    | .error e => ([], some e)
    | .ok auth =>
      if req.ServiceMethod != "inner.Auth" then
        ([], some ("rpc: auth service method: " ++ req.ServiceMethod))
      else match icpt with
        | none => ([], none)
        | some i =>
          let c : Context :=
            { user := auth.User, serviceMethod := req.ServiceMethod,
              seq := req.Seq, traceData := req.Trace }
          match i.auth c addr auth.Token with
          | none => ([sendResponse c WireBody.invalidRequest ""], none)
          | some e => ([sendResponse c WireBody.invalidRequest e], some e)

/-! ## Invocation worker (`service.call`) -/

/-- The observable actions of one invocation worker, in program order. -/
inductive CallEvent (α β : Type)
  | handlerCalled
  | responseSent (resp : Response) (body : WireBody β)
  | statCalled (arg : α) (err : Option String)
deriving DecidableEq

/-- `service.call`: rate-limit, invoke the handler reflectively unless the
rate hook erred, send the response, then report to `Stat`.  The reflective
`method.Func.Call` is abstracted as `hndlr`, which receives the context, the
decoded argument and the fresh reply value and returns the (possibly mutated)
reply and the method's error return. -/
def serviceCall (icpt : Option Interceptor) (hndlr : Context → α → β → β × Option String)
    (c : Context) (argv : α) (replyv : β) : List (CallEvent α β) :=
  let rateErr : Option String :=
    match icpt with
    | some i => i.rate c
    | none => none
  match rateErr with
  | some e =>
    let (resp, body) := sendResponse c (WireBody.value replyv) e
    [CallEvent.responseSent resp body, CallEvent.statCalled argv (some e)]
  | none =>
    let (reply2, herr) := hndlr c argv replyv
    let errmsg := match herr with | some e => e | none => ""
    let (resp, body) := sendResponse c (WireBody.value reply2) errmsg
    [CallEvent.handlerCalled, CallEvent.responseSent resp body] ++
      (match icpt with
       | some _ => [CallEvent.statCalled argv herr]
       | none => [])

/-! ## Service/method lookup and one serve-loop iteration -/

/-- Split a character list at its last `'.'`: `strings.LastIndex(sm, ".")`
with the two slices `sm[:dot]` and `sm[dot+1:]`.  `none` when no dot occurs. -/
def splitLastDotAux : List Char → Option (List Char × List Char)
  | [] => none
  | c :: rest =>
    match splitLastDotAux rest with
    | some (pre, post) => some (c :: pre, post)
    | none => if c = '.' then some ([], rest) else none

/-- Split a `ServiceMethod` string on its last dot into service and method. -/
def splitLastDot (s : String) : Option (String × String) :=
  match splitLastDotAux s.data with
  | some (pre, post) => some (String.mk pre, String.mk post)
  | none => none

/-- Lookup of a method name in a service's method map (`service.method[methodName]`). -/
def methodLookup (svc : Service) (k : String) : Option MethodT :=
  (svc.method.find? (fun p => p.1 = k)).map (·.2)

/-- The lookup portion of `Server.readRequestHeader` (the header itself has
already been decoded into `sm`): split on the last dot, find the service, find
the method; each failure yields the source's error string. -/
def readRequestHeader (m : ServiceMap) (sm : String) :
    Except String (Service × MethodT) :=
  match splitLastDot sm with
  | none => .error ("rpc: service/method request ill-formed: " ++ sm)
  | some (serviceName, methodName) =>
    match mapLookup m serviceName with
    | none => .error ("rpc: can't find service " ++ sm)
    | some svc =>
      match methodLookup svc methodName with
      | none => .error ("rpc: can't find method " ++ sm)
      | some mt => .ok (svc, mt)

/-- The decoded input of one serve-loop iteration: the header-decode outcome,
and the argument-body-decode outcome used when the lookup succeeded. -/
structure StepInput where
  header : Except String Request
  bodyErr : Option String := none

/-- The observable actions of one serve-loop iteration. -/
inductive ServeEvent
  | bodyDrained
  | responseSent (resp : Response) (body : WireBody Unit)
  | dispatched (serviceName : String) (methodName : String)
deriving DecidableEq

/-- One iteration of `Server.serveCodec`'s loop (with `Server.readRequest`
inlined): on a header-decode failure the context is nil and the loop breaks
(`false`); on a lookup failure the body is drained and an error response sent,
with the error message suppressed for `inner.Auth`; on an argument-decode
failure an error response is sent (same suppression); otherwise the call is
dispatched on its own task.  `user` is the `codec.auth.User` stored by the
handshake. -/
def serveCodecStep (m : ServiceMap) (user : String) (inp : StepInput) :
    List ServeEvent × Bool :=
  match inp.header with
  | .error _ => ([], false)
  | .ok req =>
    let c : Context :=
      { user := user, serviceMethod := req.ServiceMethod,
        seq := req.Seq, traceData := req.Trace }
    match readRequestHeader m req.ServiceMethod with
    | .error e =>
      let errmsg := if req.ServiceMethod = "inner.Auth" then "" else e
      let (resp, body) := sendResponse c WireBody.invalidRequest errmsg
      ([ServeEvent.bodyDrained, ServeEvent.responseSent resp body], true)
    | .ok (svc, mt) =>
      match inp.bodyErr with
      | some e =>
        let errmsg := if req.ServiceMethod = "inner.Auth" then "" else e
        let (resp, body) := sendResponse c WireBody.invalidRequest errmsg
        ([ServeEvent.responseSent resp body], true)
      | none => ([ServeEvent.dispatched svc.name mt.method.name], true)

/-! ## The send mutex and wire atomicity

`sendResponse` takes `codec.sending` for the whole of `writeResponse`, which
encodes the `Response` header and then the body.  The discipline is modelled
as a transition system: `n` concurrent invocation workers, each executing the
program `Lock; resp := ts; encode header; encode body; Unlock`, appending the
records they flush onto an abstract wire.  Encoding failures make the worker
stop (the source closes the connection, after which no further record reaches
the peer); stopping anywhere is allowed because no rule forces progress. -/

/-- Program counter of one worker inside `sendResponse`. -/
inductive SendPC
  | idle
  | locked
  | respSet
  | wroteHeader
  | wroteBody
  | finished
deriving DecidableEq

/-- Global state: the owner of `codec.sending`, each worker's position, and
the wire — a list of `(worker, isHeader)` records in emission order. -/
structure SendSys (n : Nat) where
  lockHolder : Option (Fin n)
  pc : Fin n → SendPC
  wire : List (Fin n × Bool)

/-- Interleaving semantics of concurrent `sendResponse` calls: acquire the
mutex from `idle`, store the header slot, encode the header, encode the body,
release.  Writes require holding the mutex, exactly as in the source where
they happen between `codec.sending.Lock()` and `codec.sending.Unlock()`. -/
inductive SendStep {n : Nat} : SendSys n → SendSys n → Prop
  | acquire (s : SendSys n) (t : Fin n) :
      s.lockHolder = none → s.pc t = SendPC.idle →
      SendStep s ⟨some t, Function.update s.pc t SendPC.locked, s.wire⟩
  | setResp (s : SendSys n) (t : Fin n) :
      s.lockHolder = some t → s.pc t = SendPC.locked →
      SendStep s ⟨some t, Function.update s.pc t SendPC.respSet, s.wire⟩
  | writeHeader (s : SendSys n) (t : Fin n) :
      s.lockHolder = some t → s.pc t = SendPC.respSet →
      SendStep s ⟨some t, Function.update s.pc t SendPC.wroteHeader, s.wire ++ [(t, true)]⟩
  | writeBody (s : SendSys n) (t : Fin n) :
      s.lockHolder = some t → s.pc t = SendPC.wroteHeader →
      SendStep s ⟨some t, Function.update s.pc t SendPC.wroteBody, s.wire ++ [(t, false)]⟩
  | release (s : SendSys n) (t : Fin n) :
      s.lockHolder = some t → s.pc t = SendPC.wroteBody →
      SendStep s ⟨none, Function.update s.pc t SendPC.finished, s.wire⟩

/-- Initial state: lock free, all workers idle, empty wire. -/
def sendInit (n : Nat) : SendSys n :=
  ⟨none, fun _ => SendPC.idle, []⟩

/-- States reachable by interleaving the workers. -/
def SendReachable {n : Nat} (s : SendSys n) : Prop :=
  Relation.ReflTransGen SendStep (sendInit n) s

/-- The optional trailing lone header of a wire. -/
def pendPart {n : Nat} : Option (Fin n) → List (Fin n × Bool)
  | some u => [(u, true)]
  | none => []

/-- A wire is a sequence of complete header-then-body blocks, one per worker
in `done`, possibly followed by a single pending header. -/
def blocksWire {n : Nat} (done : List (Fin n)) (pending : Option (Fin n)) :
    List (Fin n × Bool) :=
  done.flatMap (fun u => [(u, true), (u, false)]) ++ pendPart pending

/-- Does this program position hold the send mutex? -/
def SendPC.holdsLock : SendPC → Bool
  | .idle => false
  | .locked => true
  | .respSet => true
  | .wroteHeader => true
  | .wroteBody => true
  | .finished => false

/-- Inductive invariant of the send discipline: whoever is between `Lock` and
`Unlock` is the lock owner, and the wire is a block sequence whose optional
trailing lone header belongs to the worker that is exactly at `wroteHeader`. -/
def SendInv {n : Nat} (s : SendSys n) : Prop :=
  (∀ t, (s.pc t).holdsLock = true → s.lockHolder = some t) ∧
  ∃ done : List (Fin n), ∃ pending : Option (Fin n),
    s.wire = blocksWire done pending ∧
    done.Nodup ∧
    (∀ t, pending = some t → s.pc t = SendPC.wroteHeader) ∧
    (∀ t, s.pc t = SendPC.wroteHeader → pending = some t) ∧
    (∀ u ∈ done, s.pc u = SendPC.wroteBody ∨ s.pc u = SendPC.finished) ∧
    (∀ t, pending = some t → t ∉ done)

theorem sendInv_init (n : Nat) : SendInv (sendInit n) := by
  refine ⟨fun t h => ?_, [], none, rfl, List.nodup_nil, ?_, ?_, ?_, ?_⟩
  · simp [sendInit, SendPC.holdsLock] at h
  · intro t h; cases h
  · intro t h; simp [sendInit] at h
  · intro u hu; cases hu
  · intro t h; cases h

theorem sendInv_step {n : Nat} {s s' : SendSys n} (h : SendStep s s')
    (inv : SendInv s) : SendInv s' := by
  obtain ⟨hLock, done, pending, hw, hnd, hp1, hp2, hdone, hpd⟩ := inv
  cases h with
  | acquire t hHold hPc =>
    have hnoact : ∀ u, (s.pc u).holdsLock = true → False := by
      intro u hu
      have := hLock u hu
      rw [hHold] at this
      cases this
    have hpend : pending = none := by
      cases hpend' : pending with
      | none => rfl
      | some u =>
        exact absurd (hnoact u (by rw [hp1 u hpend']; rfl)) not_false
    subst hpend
    refine ⟨?_, done, none, hw, hnd, ?_, ?_, ?_, ?_⟩
    · intro u hu
      by_cases hut : u = t
      · subst hut; rfl
      · have hu2 : (s.pc u).holdsLock = true := by
          simpa [Function.update_apply, hut] using hu
        exact (hnoact u hu2).elim
    · intro u hu; cases hu
    · intro u hu
      by_cases hut : u = t
      · subst hut; simp [Function.update_apply] at hu
      · have hu2 : s.pc u = SendPC.wroteHeader := by
          simpa [Function.update_apply, hut] using hu
        exact hp2 u hu2
    · intro u hu
      have hut : u ≠ t := by
        intro he
        subst he
        rcases hdone u hu with h' | h' <;> rw [hPc] at h' <;> cases h'
      simpa [Function.update_apply, hut] using hdone u hu
    · intro u hu; cases hu
  | setResp t hHold hPc =>
    have hpend : pending = none := by
      cases hpend' : pending with
      | none => rfl
      | some u =>
        have h1 := hp1 u hpend'
        have h2 := hLock u (by rw [h1]; rfl)
        rw [hHold] at h2
        cases h2
        rw [hPc] at h1
        cases h1
    subst hpend
    refine ⟨?_, done, none, hw, hnd, ?_, ?_, ?_, ?_⟩
    · intro u hu
      by_cases hut : u = t
      · subst hut; rfl
      · have hu2 : (s.pc u).holdsLock = true := by
          simpa [Function.update_apply, hut] using hu
        have := hLock u hu2
        rw [hHold] at this
        cases this
        exact absurd rfl hut
    · intro u hu; cases hu
    · intro u hu
      by_cases hut : u = t
      · subst hut; simp [Function.update_apply] at hu
      · have hu2 : s.pc u = SendPC.wroteHeader := by
          simpa [Function.update_apply, hut] using hu
        exact hp2 u hu2
    · intro u hu
      have hut : u ≠ t := by
        intro he
        subst he
        rcases hdone u hu with h' | h' <;> rw [hPc] at h' <;> cases h'
      simpa [Function.update_apply, hut] using hdone u hu
    · intro u hu; cases hu
  | writeHeader t hHold hPc =>
    have hpend : pending = none := by
      cases hpend' : pending with
      | none => rfl
      | some u =>
        have h1 := hp1 u hpend'
        have h2 := hLock u (by rw [h1]; rfl)
        rw [hHold] at h2
        cases h2
        rw [hPc] at h1
        cases h1
    subst hpend
    have hwire : s.wire ++ [(t, true)] = blocksWire done (some t) := by
      rw [hw]; simp [blocksWire, pendPart]
    refine ⟨?_, done, some t, hwire, hnd, ?_, ?_, ?_, ?_⟩
    · intro u hu
      by_cases hut : u = t
      · subst hut; rfl
      · have hu2 : (s.pc u).holdsLock = true := by
          simpa [Function.update_apply, hut] using hu
        have := hLock u hu2
        rw [hHold] at this
        cases this
        exact absurd rfl hut
    · intro u hu
      cases hu
      simp [Function.update_apply]
    · intro u hu
      by_cases hut : u = t
      · subst hut; rfl
      · have hu2 : s.pc u = SendPC.wroteHeader := by
          simpa [Function.update_apply, hut] using hu
        cases hp2 u hu2
    · intro u hu
      have hut : u ≠ t := by
        intro he
        subst he
        rcases hdone u hu with h' | h' <;> rw [hPc] at h' <;> cases h'
      simpa [Function.update_apply, hut] using hdone u hu
    · intro u hu
      cases hu
      intro hmem
      rcases hdone t hmem with h' | h' <;> rw [hPc] at h' <;> cases h'
  | writeBody t hHold hPc =>
    have hpend : pending = some t := hp2 t hPc
    subst hpend
    have hwire : s.wire ++ [(t, false)] = blocksWire (done ++ [t]) none := by
      rw [hw]; simp [blocksWire, pendPart]
    refine ⟨?_, done ++ [t], none, hwire, ?_, ?_, ?_, ?_, ?_⟩
    · intro u hu
      by_cases hut : u = t
      · subst hut; rfl
      · have hu2 : (s.pc u).holdsLock = true := by
          simpa [Function.update_apply, hut] using hu
        have := hLock u hu2
        rw [hHold] at this
        cases this
        exact absurd rfl hut
    · exact List.Nodup.append hnd (List.nodup_singleton t)
        (by
          intro a ha hb
          rw [List.mem_singleton] at hb
          subst hb
          exact hpd a rfl ha)
    · intro u hu; cases hu
    · intro u hu
      by_cases hut : u = t
      · subst hut; simp [Function.update_apply] at hu
      · have hu2 : s.pc u = SendPC.wroteHeader := by
          simpa [Function.update_apply, hut] using hu
        cases hp2 u hu2
        exact absurd rfl hut
    · intro u hu
      rcases List.mem_append.mp hu with hmem | hmem
      · by_cases hut : u = t
        · subst hut; simp [Function.update_apply]
        · have := hdone u hmem
          simpa [Function.update_apply, hut] using this
      · rw [List.mem_singleton] at hmem
        subst hmem
        simp [Function.update_apply]
    · intro u hu; cases hu
  | release t hHold hPc =>
    have hpend : pending = none := by
      cases hpend' : pending with
      | none => rfl
      | some u =>
        have h1 := hp1 u hpend'
        have h2 := hLock u (by rw [h1]; rfl)
        rw [hHold] at h2
        cases h2
        rw [hPc] at h1
        cases h1
    subst hpend
    refine ⟨?_, done, none, hw, hnd, ?_, ?_, ?_, ?_⟩
    · intro u hu
      by_cases hut : u = t
      · subst hut; simp [Function.update_apply, SendPC.holdsLock] at hu
      · have hu2 : (s.pc u).holdsLock = true := by
          simpa [Function.update_apply, hut] using hu
        have := hLock u hu2
        rw [hHold] at this
        cases this
        exact absurd rfl hut
    · intro u hu; cases hu
    · intro u hu
      by_cases hut : u = t
      · subst hut; simp [Function.update_apply] at hu
      · have hu2 : s.pc u = SendPC.wroteHeader := by
          simpa [Function.update_apply, hut] using hu
        cases hp2 u hu2
    · intro u hu
      by_cases hut : u = t
      · subst hut; simp [Function.update_apply]
      · have := hdone u hu
        simpa [Function.update_apply, hut] using this
    · intro u hu; cases hu


theorem sendReachable_inv {n : Nat} {s : SendSys n} (h : SendReachable s) :
    SendInv s := by
  induction h with
  | refl => exact sendInv_init n
  | tail _ hstep ih => exact sendInv_step hstep ih

theorem mem_blocks_fst {n : Nat} {d : List (Fin n)} {e : Fin n × Bool}
    (he : e ∈ d.flatMap (fun u => [(u, true), (u, false)])) : e.1 ∈ d := by
  rcases List.mem_flatMap.mp he with ⟨u, hu, hmem⟩
  have hfst : e.1 = u := by
    rcases (by simpa using hmem : e = (u, true) ∨ e = (u, false)) with h | h <;> simp [h]
  rw [hfst]
  exact hu

theorem blocksWire_contiguous {n : Nat} (done : List (Fin n)) (pending : Option (Fin n))
    (hnd : done.Nodup) (hpd : ∀ u, pending = some u → u ∉ done) (t : Fin n) :
    ∃ w1 seg w2, blocksWire done pending = w1 ++ seg ++ w2 ∧
      (∀ e ∈ seg, e.1 = t) ∧ (∀ e ∈ w1, e.1 ≠ t) ∧ (∀ e ∈ w2, e.1 ≠ t) := by
  by_cases hmem : t ∈ done
  · obtain ⟨d1, d2, rfl⟩ := List.append_of_mem hmem
    have hdisj : List.Disjoint d1 (t :: d2) := List.disjoint_of_nodup_append hnd
    have h1 : t ∉ d1 := fun hx => hdisj hx (List.mem_cons_self t d2)
    have h2 : t ∉ d2 := by
      have := (List.nodup_append.mp hnd).2.1
      exact (List.nodup_cons.mp this).1
    refine ⟨d1.flatMap (fun u => [(u, true), (u, false)]), [(t, true), (t, false)],
      d2.flatMap (fun u => [(u, true), (u, false)]) ++ pendPart pending, ?_, ?_, ?_, ?_⟩
    · simp [blocksWire]
    · intro e he
      rcases (by simpa using he : e = (t, true) ∨ e = (t, false)) with h | h <;> simp [h]
    · intro e he hfst
      exact h1 (hfst ▸ mem_blocks_fst he)
    · intro e he hfst
      rcases List.mem_append.mp he with hm | hm
      · exact h2 (hfst ▸ mem_blocks_fst hm)
      · cases hpend : pending with
        | none => rw [hpend] at hm; cases hm
        | some p =>
          rw [hpend] at hm
          have hep : e = (p, true) := by simpa [pendPart] using hm
          have hp2 : p = t := by rw [hep] at hfst; exact hfst
          subst hp2
          exact hpd p hpend (List.mem_append_right d1 (List.mem_cons_self p d2))
  · cases hpend : pending with
    | some p =>
      by_cases hpt : p = t
      · subst hpt
        refine ⟨done.flatMap (fun u => [(u, true), (u, false)]), [(p, true)], [],
          ?_, ?_, ?_, ?_⟩
        · simp [blocksWire, pendPart]
        · intro e he
          have hep : e = (p, true) := by simpa using he
          simp [hep]
        · intro e he hfst
          exact hmem (hfst ▸ mem_blocks_fst he)
        · intro e he; cases he
      · refine ⟨blocksWire done (some p), [], [], by simp, ?_, ?_, ?_⟩
        · intro e he; cases he
        · intro e he hfst
          simp only [blocksWire, List.mem_append] at he
          rcases he with hm | hm
          · exact hmem (hfst ▸ mem_blocks_fst hm)
          · have hep : e = (p, true) := by simpa [pendPart] using hm
            rw [hep] at hfst
            exact hpt hfst
        · intro e he; cases he
    | none =>
      refine ⟨blocksWire done none, [], [], by simp, ?_, ?_, ?_⟩
      · intro e he; cases he
      · intro e he hfst
        simp only [blocksWire, List.mem_append] at he
        rcases he with hm | hm
        · exact hmem (hfst ▸ mem_blocks_fst hm)
        · simp [pendPart] at hm
      · intro e he; cases he

/-! ## Helper lemmas: registration -/

theorem mapLookup_insert_self (m : ServiceMap) (k : String) (v : Service) :
    mapLookup (mapInsert m k v) k = some v := by
  simp [mapLookup, mapInsert]

theorem mapLookup_insert_ne (m : ServiceMap) (k k' : String) (v : Service)
    (h : k' ≠ k) : mapLookup (mapInsert m k v) k' = mapLookup m k' := by
  simp [mapLookup, mapInsert, h]

theorem register_ok {m : ServiceMap} {rcvr : Receiver} {name : String} {useName : Bool}
    {sname : String} (hs : (if useName then name else rcvr.indirectName) = sname)
    (hname : sname ≠ "")
    (hexp : (!isExported sname && !useName) = false)
    (hdup : mapLookup m sname = none)
    (hsm : (suitableMethods rcvr.methods).isEmpty = false) :
    register m rcvr name useName =
      (mapInsert m sname ⟨sname, suitableMethods rcvr.methods⟩, none) := by
  simp only [register]
  rw [hs]
  simp [hname, hexp, hdup, hsm]

theorem register_dup {m : ServiceMap} {rcvr : Receiver} {name : String} {useName : Bool}
    {sname : String} (hs : (if useName then name else rcvr.indirectName) = sname)
    (hname : sname ≠ "")
    (hexp : (!isExported sname && !useName) = false)
    (hdup : (mapLookup m sname).isSome = true) :
    register m rcvr name useName =
      (m, some ("rpc: service already defined: " ++ sname)) := by
  simp only [register]
  rw [hs]
  simp [hname, hexp, hdup]

theorem register_none_shape {m m1 : ServiceMap} {rcvr : Receiver} {name : String}
    {useName : Bool} (h : register m rcvr name useName = (m1, none)) :
    m1 = mapInsert m (if useName then name else rcvr.indirectName)
      ⟨if useName then name else rcvr.indirectName, suitableMethods rcvr.methods⟩ ∧
    mapLookup m (if useName then name else rcvr.indirectName) = none := by
  simp only [register] at h
  generalize hg : (if useName then name else rcvr.indirectName) = sname at h ⊢
  split_ifs at h with h1 h2 h3 h4 h5
  · injection h with hA hB; cases hB
  · injection h with hA hB; cases hB
  · injection h with hA hB; cases hB
  · injection h with hA hB; cases hB
  · injection h with hA hB; cases hB
  · injection h with hA hB
    exact ⟨hA.symm, Option.not_isSome_iff_eq_none.mp h3⟩

theorem Register_installs_inner {m m' : ServiceMap} {rcvr : Receiver}
    (h : Register m rcvr = (m', none)) :
    mapLookup m' "inner" = some ⟨"inner", suitableMethods pingerReceiver.methods⟩ := by
  rcases hr : register m rcvr "" false with ⟨m1, e⟩
  unfold Register at h
  rw [hr] at h
  cases e with
  | some e1 => simp at h
  | none =>
    obtain ⟨hm', _⟩ := register_none_shape h
    rw [hm']
    simp only [if_pos rfl]
    exact mapLookup_insert_self _ _ _

/-- The signature contract, stated over a reflected method: exactly four
inputs counting the receiver, an exported method name, a context-capable
first non-receiver input, an exported-or-builtin arg, a pointer to an
exported-or-builtin reply, and exactly one `error` return. -/
def SuitableSig (mth : GoMethod) : Prop :=
  mth.pkgPath = "" ∧
  mth.ins.length = 4 ∧
  (mth.ins.getD 1 anyType).implementsCtx = true ∧
  isExportedOrBuiltinType (mth.ins.getD 2 anyType) = true ∧
  (mth.ins.getD 3 anyType).isPtr = true ∧
  isExportedOrBuiltinType (mth.ins.getD 3 anyType) = true ∧
  mth.outs.length = 1 ∧
  mth.outs.getD 0 anyType = typeOfError

theorem suitableMethods_sound (ms : List GoMethod) :
    ∀ p ∈ suitableMethods ms, SuitableSig p.2.method := by
  induction ms with
  | nil => intro p hp; cases hp
  | cons m rest ih =>
    intro p hp
    simp only [suitableMethods] at hp
    split at hp
    · exact ih p hp
    next h1 =>
    split at hp
    · exact ih p hp
    next h2 =>
    split at hp
    · exact ih p hp
    next h3 =>
    split at hp
    · exact ih p hp
    next h4 =>
    split at hp
    · exact ih p hp
    next h5 =>
    split at hp
    · exact ih p hp
    next h6 =>
    split at hp
    · exact ih p hp
    next h7 =>
    split at hp
    · exact ih p hp
    next h8 =>
    rcases List.mem_cons.mp hp with hpe | hmem
    · subst hpe
      simp only [bne_iff_ne, ne_eq, not_not, Bool.not_eq_true, Bool.not_eq_false,
        Bool.not_eq_true', Bool.not_eq_false'] at h1 h2 h3 h4 h5 h6 h7 h8
      exact ⟨h1, h2, h3, h4, h5, h6, h7, h8⟩
    · exact ih p hmem

/-! ## Helper lemmas: last-dot splitting -/

theorem splitLastDotAux_eq_none {l : List Char} (h : '.' ∉ l) :
    splitLastDotAux l = none := by
  induction l with
  | nil => rfl
  | cons c rest ih =>
    have hc : ¬(c = '.') := by
      intro he
      subst he
      exact h (List.mem_cons_self _ _)
    have hr : '.' ∉ rest := fun hm => h (List.mem_cons_of_mem c hm)
    simp [splitLastDotAux, ih hr, hc]

theorem splitLastDotAux_append {pre post : List Char} (h : '.' ∉ post) :
    splitLastDotAux (pre ++ '.' :: post) = some (pre, post) := by
  induction pre with
  | nil => simp [splitLastDotAux, splitLastDotAux_eq_none h]
  | cons c rest ih => simp [splitLastDotAux, ih]

theorem splitLastDot_append (a b : String) (h : '.' ∉ b.data) :
    splitLastDot (a ++ "." ++ b) = some (a, b) := by
  have hdata : (a ++ "." ++ b).data = a.data ++ '.' :: b.data := by
    simp [String.data_append]
  simp [splitLastDot, hdata, splitLastDotAux_append h]

theorem splitLastDot_eq_none {s : String} (h : '.' ∉ s.data) :
    splitLastDot s = none := by
  simp [splitLastDot, splitLastDotAux_eq_none h]

/-! ## Concrete receivers used as evaluation witnesses -/

/-- A reflected `Arith` receiver with one suitable `Add` method. -/
def arithAddMethod : GoMethod :=
  { name := "Add"
    pkgPath := ""
    ins := [GoType.ptr false (GoType.base "Arith" "main" false),
            contextIfaceType,
            GoType.base "Args" "main" false,
            GoType.ptr false (GoType.base "Reply" "main" false)]
    outs := [typeOfError] }

def arithReceiver : Receiver :=
  { typeName := "*main.Arith"
    indirectName := "Arith"
    methods := [arithAddMethod]
    ptrMethods := [arithAddMethod] }

/-- A second reflected receiver with a distinct service name. -/
def calcReceiver : Receiver :=
  { typeName := "*main.Calc"
    indirectName := "Calc"
    methods := [{ arithAddMethod with name := "Mul" }]
    ptrMethods := [{ arithAddMethod with name := "Mul" }] }

/-! ## Helper lemmas: a second registration after a successful one -/

theorem second_register_shape {m1 : ServiceMap} {r2 : Receiver}
    (hinner : mapLookup m1 "inner" = some ⟨"inner", suitableMethods pingerReceiver.methods⟩)
    (hname : r2.indirectName ≠ "")
    (hexp : isExported r2.indirectName = true)
    (hdupR : mapLookup m1 r2.indirectName = none)
    (hsm : (suitableMethods r2.methods).isEmpty = false) :
    Register m1 r2 =
      (mapInsert m1 r2.indirectName ⟨r2.indirectName, suitableMethods r2.methods⟩,
       some ("rpc: service already defined: " ++ "inner")) := by
  have hreg : register m1 r2 "" false =
      (mapInsert m1 r2.indirectName ⟨r2.indirectName, suitableMethods r2.methods⟩, none) :=
    register_ok rfl hname (by rw [hexp]; rfl) hdupR hsm
  have hne2 : ("inner" : String) ≠ r2.indirectName := by
    intro he
    rw [← he, hinner] at hdupR
    cases hdupR
  have hdupI : (mapLookup
      (mapInsert m1 r2.indirectName ⟨r2.indirectName, suitableMethods r2.methods⟩)
      "inner").isSome = true := by
    rw [mapLookup_insert_ne _ _ _ _ hne2, hinner]
    rfl
  have hfin := @register_dup
      (mapInsert m1 r2.indirectName ⟨r2.indirectName, suitableMethods r2.methods⟩)
      pingerReceiver "inner" true "inner" rfl (by decide) (by decide) hdupI
  unfold Register
  rw [hreg]
  exact hfin

theorem second_registerName_shape {m1 : ServiceMap} {r2 : Receiver} {n2 : String}
    (hinner : mapLookup m1 "inner" = some ⟨"inner", suitableMethods pingerReceiver.methods⟩)
    (hn2 : n2 ≠ "")
    (hdupN : mapLookup m1 n2 = none)
    (hsm : (suitableMethods r2.methods).isEmpty = false) :
    RegisterName m1 n2 r2 =
      (mapInsert m1 n2 ⟨n2, suitableMethods r2.methods⟩,
       some ("rpc: service already defined: " ++ "inner")) := by
  have hreg : register m1 r2 n2 true =
      (mapInsert m1 n2 ⟨n2, suitableMethods r2.methods⟩, none) :=
    register_ok rfl hn2 (by simp) hdupN hsm
  have hne2 : ("inner" : String) ≠ n2 := by
    intro he
    rw [← he, hinner] at hdupN
    cases hdupN
  have hdupI : (mapLookup (mapInsert m1 n2 ⟨n2, suitableMethods r2.methods⟩)
      "inner").isSome = true := by
    rw [mapLookup_insert_ne _ _ _ _ hne2, hinner]
    rfl
  have hfin := @register_dup (mapInsert m1 n2 ⟨n2, suitableMethods r2.methods⟩)
      pingerReceiver "inner" true "inner" rfl (by decide) (by decide) hdupI
  unfold RegisterName
  rw [hreg]
  exact hfin

/-! ## Claim theorems -/

/-- Claim C1 (amended): with `Handshake=true`, the handshake writes exactly one
`Response` record exactly when the header and `Auth` body both decode, the
header's `ServiceMethod` is `inner.Auth`, and an `Interceptor` is configured —
one response whether `Interceptor.Auth` succeeds or fails; on a structural
mismatch or with no `Interceptor` configured (and on decode failures, and with
`Handshake=false`) zero responses are written.  (The claim as stated, that a
response is also written on structural mismatch and with no interceptor, is
refuted by `Rpc.handshake_missing_response_counterexample`.) -/
theorem handshake_response_count (icpt : Interceptor) (addr : String)
    (sm : String) (seq : Nat) (tr : Option Nat) (u tok : String) (eh eb : String) :
    ((handshake true (some icpt) addr ⟨.ok ⟨sm, seq, tr⟩, .ok ⟨u, tok⟩⟩).1.length =
      if sm = "inner.Auth" then 1 else 0) ∧
    (handshake true none addr ⟨.ok ⟨sm, seq, tr⟩, .ok ⟨u, tok⟩⟩).1 = [] ∧
    (handshake true (some icpt) addr ⟨.error eh, .ok ⟨u, tok⟩⟩).1 = [] ∧
    (handshake true (some icpt) addr ⟨.ok ⟨sm, seq, tr⟩, .error eb⟩).1 = [] ∧
    (handshake false (some icpt) addr ⟨.ok ⟨sm, seq, tr⟩, .ok ⟨u, tok⟩⟩).1 = [] := by
  refine ⟨?_, ?_, rfl, rfl, rfl⟩
  · by_cases hsm : sm = "inner.Auth"
    · subst hsm
      rcases hAuth : icpt.auth ⟨u, "inner.Auth", seq, tr⟩ addr tok with _ | e <;>
        simp [handshake, hAuth]
    · simp [handshake, hsm]
  · by_cases hsm : sm = "inner.Auth" <;> simp [handshake, hsm]

/-- Claim C1 is false as stated: a handshake-enabled connection with no
`Interceptor` configured (valid `inner.Auth` header and `Auth` body), and one
with an `Interceptor` but a structurally mismatched header, both write zero
`Response` records during the handshake, not exactly one. -/
theorem handshake_missing_response_counterexample :
    (handshake true none "10.0.0.1:42"
      ⟨.ok ⟨"inner.Auth", 0, none⟩, .ok ⟨"u", "tok"⟩⟩).1.length = 0 ∧
    (handshake true (some ⟨fun _ => none, fun _ _ _ => none⟩) "10.0.0.1:42"
      ⟨.ok ⟨"Arith.Add", 0, none⟩, .ok ⟨"u", "tok"⟩⟩).1.length = 0 :=
  ⟨rfl, rfl⟩

/-- Claim C2: when `Register(R)` succeeds, the service published under `R`'s
concrete type name carries exactly the `suitableMethods` filtering of `R`'s
method set, and every method in that published map satisfies the signature
contract: exported, exactly 4 inputs counting the receiver, a context-capable
first non-receiver input, an exported-or-builtin arg, a pointer to an
exported-or-builtin reply, and exactly one `error` return.  No method failing
a rule is present in the map. -/
theorem Register_published_methods_suitable {m m' : ServiceMap} {rcvr : Receiver}
    (h : Register m rcvr = (m', none)) :
    ∃ svc, mapLookup m' rcvr.indirectName = some svc ∧
      svc.method = suitableMethods rcvr.methods ∧
      ∀ p ∈ svc.method, SuitableSig p.2.method := by
  rcases hr : register m rcvr "" false with ⟨m1, e⟩
  unfold Register at h
  rw [hr] at h
  cases e with
  | some e1 => simp at h
  | none =>
    obtain ⟨hm1, _⟩ := register_none_shape hr
    obtain ⟨hm', hlook⟩ := register_none_shape h
    simp at hm1 hm' hlook
    have hne : rcvr.indirectName ≠ "inner" := by
      intro he
      rw [hm1, ← he, mapLookup_insert_self] at hlook
      cases hlook
    refine ⟨⟨rcvr.indirectName, suitableMethods rcvr.methods⟩, ?_, rfl, ?_⟩
    · rw [hm', hm1, mapLookup_insert_ne _ _ _ _ hne, mapLookup_insert_self]
    · intro p hp
      exact suitableMethods_sound rcvr.methods p hp

/-- Witness for C2 at the concrete `Arith` receiver registered into an empty
server. -/
theorem Register_published_methods_suitable_witness :
    ∃ svc, mapLookup (Register [] arithReceiver).1 arithReceiver.indirectName = some svc ∧
      svc.method = suitableMethods arithReceiver.methods ∧
      ∀ p ∈ svc.method, SuitableSig p.2.method :=
  @Register_published_methods_suitable [] ((Register [] arithReceiver).1)
    arithReceiver (by rfl)

/-- The `Rate = some "busy"` interceptor used as the C3 witness. -/
def busyInterceptor : Interceptor :=
  { rate := fun _ => some "busy", auth := fun _ _ _ => none }

/-- Claim C3: when the configured interceptor's `Rate` returns an error, the
invocation worker never calls the user handler; it sends a response whose
`Error` is the rate error's string, and still calls `Stat` afterwards with the
original decoded argument and that same error. -/
theorem rate_error_bypasses_handler {α β : Type} (i : Interceptor)
    (hndlr : Context → α → β → β × Option String) (c : Context) (argv : α)
    (replyv : β) (e : String) (hr : i.rate c = some e) :
    serviceCall (some i) hndlr c argv replyv =
      [CallEvent.responseSent ⟨c.serviceMethod, c.seq, e⟩
        (if e != "" then WireBody.invalidRequest else WireBody.value replyv),
       CallEvent.statCalled argv (some e)] ∧
    CallEvent.handlerCalled ∉ serviceCall (some i) hndlr c argv replyv := by
  have heq : serviceCall (some i) hndlr c argv replyv =
      [CallEvent.responseSent ⟨c.serviceMethod, c.seq, e⟩
        (if e != "" then WireBody.invalidRequest else WireBody.value replyv),
       CallEvent.statCalled argv (some e)] := by
    simp [serviceCall, hr, sendResponse]
  refine ⟨heq, ?_⟩
  rw [heq]
  simp

/-- Witness for C3: a `"busy"` rate error on `Arith.Add` with Seq 9. -/
theorem rate_error_bypasses_handler_witness :
    serviceCall (some busyInterceptor)
        (fun _ (a : Nat) (r : Nat) => (r + a, none)) ⟨"", "Arith.Add", 9, none⟩ 1 0 =
      [CallEvent.responseSent ⟨"Arith.Add", 9, "busy"⟩
        (if "busy" != "" then WireBody.invalidRequest else WireBody.value 0),
       CallEvent.statCalled 1 (some "busy")] ∧
    CallEvent.handlerCalled ∉ serviceCall (some busyInterceptor)
        (fun _ (a : Nat) (r : Nat) => (r + a, none)) ⟨"", "Arith.Add", 9, none⟩ 1 0 :=
  rate_error_bypasses_handler busyInterceptor
    (fun _ (a : Nat) (r : Nat) => (r + a, none)) ⟨"", "Arith.Add", 9, none⟩ 1 0 "busy" rfl

/-- Claim C4: `sendResponse` fills the response header from the context and,
when the error message is non-empty, writes the `invalidRequest` placeholder
instead of the reply value; with an empty error message it writes the reply
value itself.  The placeholder is never the passed reply value. -/
theorem sendResponse_error_placeholder {β : Type} (c : Context) (r : β)
    (errmsg : String) :
    sendResponse c (WireBody.value r) errmsg =
      ({ ServiceMethod := c.serviceMethod, Seq := c.seq, Error := errmsg },
       if errmsg ≠ "" then WireBody.invalidRequest else WireBody.value r) ∧
    WireBody.invalidRequest ≠ WireBody.value r := by
  constructor
  · simp [sendResponse, bne_iff_ne]
  · intro h
    cases h

/-- Claim C5: a decoded header whose `ServiceMethod` contains no dot yields a
drained body frame and an error response matching
`rpc: service/method request ill-formed`, and the loop continues; and when a
dot is present the identifier is split on the last dot. -/
theorem illformed_request_response (m : ServiceMap) (user : String)
    (sm : String) (seq : Nat) (tr : Option Nat) (hnodot : '.' ∉ sm.data) :
    (serveCodecStep m user ⟨.ok ⟨sm, seq, tr⟩, none⟩ =
      ([ServeEvent.bodyDrained,
        ServeEvent.responseSent
          { ServiceMethod := sm, Seq := seq,
            Error := "rpc: service/method request ill-formed: " ++ sm }
          WireBody.invalidRequest], true)) ∧
    ∀ a b : String, '.' ∉ b.data → splitLastDot (a ++ "." ++ b) = some (a, b) := by
  constructor
  · have hne : sm ≠ "inner.Auth" := by
      intro he
      rw [he] at hnodot
      exact hnodot (by decide)
    have hsplit := splitLastDot_eq_none hnodot
    simp [serveCodecStep, readRequestHeader, hsplit, hne, sendResponse]
  · exact fun a b hb => splitLastDot_append a b hb

/-- Witness for C5 at the dotless identifier `Ping`. -/
theorem illformed_request_response_witness :
    (serveCodecStep [] "" ⟨.ok ⟨"Ping", 7, none⟩, none⟩ =
      ([ServeEvent.bodyDrained,
        ServeEvent.responseSent
          { ServiceMethod := "Ping", Seq := 7,
            Error := "rpc: service/method request ill-formed: " ++ "Ping" }
          WireBody.invalidRequest], true)) ∧
    ∀ a b : String, '.' ∉ b.data → splitLastDot (a ++ "." ++ b) = some (a, b) :=
  illformed_request_response [] "" "Ping" 7 none (by decide)

/-- Claim C6 (amended): a well-formed request whose service is not registered
yields a drained body frame, a response whose `Error` is
`rpc: can't find service ` + `ServiceMethod`, and the loop continues; a
registered service with an unknown method likewise yields
`rpc: can't find method ` + `ServiceMethod` — except when `ServiceMethod`
equals `inner.Auth`, for which the response `Error` is the empty string (see
`Rpc.lookup_failure_counterexample`). -/
theorem lookup_failure_responses (m : ServiceMap) (user : String)
    (sm : String) (seq : Nat) (tr : Option Nat) (sname mname : String)
    (hsplit : splitLastDot sm = some (sname, mname))
    (hne : sm ≠ "inner.Auth") :
    (mapLookup m sname = none →
      serveCodecStep m user ⟨.ok ⟨sm, seq, tr⟩, none⟩ =
        ([ServeEvent.bodyDrained,
          ServeEvent.responseSent
            { ServiceMethod := sm, Seq := seq,
              Error := "rpc: can't find service " ++ sm }
            WireBody.invalidRequest], true)) ∧
    (∀ svc, mapLookup m sname = some svc → methodLookup svc mname = none →
      serveCodecStep m user ⟨.ok ⟨sm, seq, tr⟩, none⟩ =
        ([ServeEvent.bodyDrained,
          ServeEvent.responseSent
            { ServiceMethod := sm, Seq := seq,
              Error := "rpc: can't find method " ++ sm }
            WireBody.invalidRequest], true)) := by
  constructor
  · intro hsvc
    simp [serveCodecStep, readRequestHeader, hsplit, hsvc, hne, sendResponse]
  · intro svc hsvc hmth
    simp [serveCodecStep, readRequestHeader, hsplit, hsvc, hmth, hne, sendResponse]

/-- Witness for C6 at `MathSvc.Nope` against an empty service map and against
a map holding only an (empty) `MathSvc` service. -/
theorem lookup_failure_responses_witness :
    (mapLookup [] "MathSvc" = none →
      serveCodecStep [] "" ⟨.ok ⟨"MathSvc.Nope", 1, none⟩, none⟩ =
        ([ServeEvent.bodyDrained,
          ServeEvent.responseSent
            { ServiceMethod := "MathSvc.Nope", Seq := 1,
              Error := "rpc: can't find service " ++ "MathSvc.Nope" }
            WireBody.invalidRequest], true)) ∧
    (∀ svc, mapLookup [] "MathSvc" = some svc → methodLookup svc "Nope" = none →
      serveCodecStep [] "" ⟨.ok ⟨"MathSvc.Nope", 1, none⟩, none⟩ =
        ([ServeEvent.bodyDrained,
          ServeEvent.responseSent
            { ServiceMethod := "MathSvc.Nope", Seq := 1,
              Error := "rpc: can't find method " ++ "MathSvc.Nope" }
            WireBody.invalidRequest], true)) :=
  lookup_failure_responses [] "" "MathSvc.Nope" 1 none "MathSvc" "Nope"
    (by decide) (by decide)

/-- Claim C6 is false as universally stated: with the built-in `inner` service
registered (its method map holds only `Ping`), the request `inner.Auth` is a
registered-service/unknown-method request, yet the response `Error` is the
empty string, not `rpc: can't find method inner.Auth`. -/
theorem lookup_failure_counterexample :
    serveCodecStep (Register [] arithReceiver).1 ""
        ⟨.ok ⟨"inner.Auth", 5, none⟩, none⟩ =
      ([ServeEvent.bodyDrained,
        ServeEvent.responseSent ⟨"inner.Auth", 5, ""⟩ WireBody.invalidRequest], true) ∧
    ("" : String) ≠ "rpc: can't find method inner.Auth" := by
  refine ⟨by rfl, by decide⟩

/-- Claim C7: a post-handshake request naming `inner.Auth` whose lookup fails
gets a response whose `Error` is the empty string (the lookup error is
suppressed), the body frame is drained, and the loop continues. -/
theorem innerAuth_suppressed_response (m : ServiceMap) (user : String) (seq : Nat)
    (tr : Option Nat) (e : String)
    (hl : readRequestHeader m "inner.Auth" = .error e) :
    serveCodecStep m user ⟨.ok ⟨"inner.Auth", seq, tr⟩, none⟩ =
      ([ServeEvent.bodyDrained,
        ServeEvent.responseSent ⟨"inner.Auth", seq, ""⟩ WireBody.invalidRequest],
       true) := by
  simp [serveCodecStep, hl, sendResponse]

/-- Witness for C7 against the empty service map. -/
theorem innerAuth_suppressed_response_witness :
    serveCodecStep [] "" ⟨.ok ⟨"inner.Auth", 3, none⟩, none⟩ =
      ([ServeEvent.bodyDrained,
        ServeEvent.responseSent ⟨"inner.Auth", 3, ""⟩ WireBody.invalidRequest],
       true) :=
  innerAuth_suppressed_response [] "" 3 none
    ("rpc: can't find service " ++ "inner.Auth") (by rfl)

/-- Claim C8: once one `Register` has succeeded (installing `inner`), a second
`Register` of a receiver with a distinct valid service name, or a second
`RegisterName` under a distinct non-empty name, returns the error
`rpc: service already defined: inner`, because both re-register the built-in
`inner` service. -/
theorem second_register_collides_inner {m0 m1 : ServiceMap} {r1 r2 : Receiver}
    {n2 : String}
    (h1 : Register m0 r1 = (m1, none))
    (hname : r2.indirectName ≠ "")
    (hexp : isExported r2.indirectName = true)
    (hdupR : mapLookup m1 r2.indirectName = none)
    (hsm : (suitableMethods r2.methods).isEmpty = false)
    (hn2 : n2 ≠ "")
    (hdupN : mapLookup m1 n2 = none) :
    (Register m1 r2).2 = some "rpc: service already defined: inner" ∧
    (RegisterName m1 n2 r2).2 = some "rpc: service already defined: inner" := by
  have hinner := Register_installs_inner h1
  constructor
  · rw [second_register_shape hinner hname hexp hdupR hsm]
    rfl
  · rw [second_registerName_shape hinner hn2 hdupN hsm]
    rfl

/-- Witness for C8: register `Arith` into an empty server, then `Calc` (by
`Register` and by `RegisterName` under `Calc2`). -/
theorem second_register_collides_inner_witness :
    (Register (Register [] arithReceiver).1 calcReceiver).2 =
      some "rpc: service already defined: inner" ∧
    (RegisterName (Register [] arithReceiver).1 "Calc2" calcReceiver).2 =
      some "rpc: service already defined: inner" :=
  @second_register_collides_inner [] ((Register [] arithReceiver).1)
    arithReceiver calcReceiver "Calc2"
    (by rfl) (by decide) (by decide) (by rfl) (by rfl) (by decide) (by rfl)

/-- Claim C9: `Register` and `RegisterName` are not atomic on failure — when
the second `Register(R2)` or `RegisterName(n2, R2)` returns the
`service already defined: inner` error, `R2`'s service has nevertheless been
added to the service map (under its concrete type name, resp. under `n2`),
with exactly its filtered method set, so its methods are callable despite the
non-nil error return. -/
theorem second_register_not_atomic {m0 m1 : ServiceMap} {r1 r2 : Receiver}
    {n2 : String}
    (h1 : Register m0 r1 = (m1, none))
    (hname : r2.indirectName ≠ "")
    (hexp : isExported r2.indirectName = true)
    (hdupR : mapLookup m1 r2.indirectName = none)
    (hsm : (suitableMethods r2.methods).isEmpty = false)
    (hn2 : n2 ≠ "")
    (hdupN : mapLookup m1 n2 = none) :
    ((Register m1 r2).2 = some "rpc: service already defined: inner" ∧
      mapLookup (Register m1 r2).1 r2.indirectName =
        some ⟨r2.indirectName, suitableMethods r2.methods⟩) ∧
    ((RegisterName m1 n2 r2).2 = some "rpc: service already defined: inner" ∧
      mapLookup (RegisterName m1 n2 r2).1 n2 =
        some ⟨n2, suitableMethods r2.methods⟩) := by
  have hinner := Register_installs_inner h1
  constructor
  · rw [second_register_shape hinner hname hexp hdupR hsm]
    exact ⟨rfl, mapLookup_insert_self _ _ _⟩
  · rw [second_registerName_shape hinner hn2 hdupN hsm]
    exact ⟨rfl, mapLookup_insert_self _ _ _⟩

/-- Witness for C9: after the failing second `Register` of `Calc`, and after
the failing second `RegisterName` under `Calc2`, the new service is in the
map. -/
theorem second_register_not_atomic_witness :
    ((Register (Register [] arithReceiver).1 calcReceiver).2 =
        some "rpc: service already defined: inner" ∧
      mapLookup (Register (Register [] arithReceiver).1 calcReceiver).1
          calcReceiver.indirectName =
        some ⟨calcReceiver.indirectName, suitableMethods calcReceiver.methods⟩) ∧
    ((RegisterName (Register [] arithReceiver).1 "Calc2" calcReceiver).2 =
        some "rpc: service already defined: inner" ∧
      mapLookup (RegisterName (Register [] arithReceiver).1 "Calc2" calcReceiver).1
          "Calc2" =
        some ⟨"Calc2", suitableMethods calcReceiver.methods⟩) :=
  @second_register_not_atomic [] ((Register [] arithReceiver).1)
    arithReceiver calcReceiver "Calc2"
    (by rfl) (by decide) (by decide) (by rfl) (by rfl) (by decide) (by rfl)

/-- Claim C10: in every state reachable by interleaving concurrent
`sendResponse` calls under the send mutex, each worker's wire records (its
response header and body) form one contiguous segment of the wire: no record
of any other response lies between them. -/
theorem response_wire_atomic {n : Nat} (s : SendSys n) (h : SendReachable s)
    (t : Fin n) :
    ∃ w1 seg w2, s.wire = w1 ++ seg ++ w2 ∧ (∀ e ∈ seg, e.1 = t) ∧
      (∀ e ∈ w1, e.1 ≠ t) ∧ (∀ e ∈ w2, e.1 ≠ t) := by
  obtain ⟨-, done, pending, hw, hnd, -, -, -, hpd⟩ := sendReachable_inv h
  rw [hw]
  exact blocksWire_contiguous done pending hnd hpd t

/-- Witness for C10 at the initial two-worker state. -/
theorem response_wire_atomic_witness :
    ∃ w1 seg w2, (sendInit 2).wire = w1 ++ seg ++ w2 ∧
      (∀ e ∈ seg, e.1 = (0 : Fin 2)) ∧
      (∀ e ∈ w1, e.1 ≠ (0 : Fin 2)) ∧ (∀ e ∈ w2, e.1 ≠ (0 : Fin 2)) :=
  response_wire_atomic (sendInit 2) Relation.ReflTransGen.refl 0

end Rpc
